import Mathlib

/-! Shallow embedding of the wasm-globe renderer core (src/lib.rs).

Floating-point doubles are modelled as exact reals, with `Option ℝ` standing
for a possibly-NaN value (`none` = NaN).  The IEEE operations that can create
a NaN in this code — `sqrt` of a negative number, `acos` outside `[-1, 1]`,
and the `0/0` inside `cartesian_to_unit_spherical` — are modelled explicitly;
all other operations on non-NaN doubles stay real-valued.  Rounding error is
not modelled: the claims under study are about sign structure, NaN handling
and exact algebraic identities, not ulp-level precision.
-/

open Real

open scoped Classical

/-- IEEE square root on non-NaN input: NaN (`none`) for a negative argument,
the real square root otherwise. -/
noncomputable def fsqrt (r : ℝ) : Option ℝ :=
  if r < 0 then none else some (Real.sqrt r)

/-- IEEE `acos` on non-NaN input: NaN (`none`) outside `[-1, 1]`. -/
noncomputable def facos (r : ℝ) : Option ℝ :=
  if r < -1 ∨ 1 < r then none else some (Real.arccos r)

/-- Rust `f64::signum` on non-NaN input (`signum (+0.0) = 1.0`). -/
noncomputable def fsignum (r : ℝ) : ℝ :=
  if r < 0 then -1 else 1

/-- Rust `f64::to_degrees`: multiply by `180 / π`. -/
noncomputable def deg (r : ℝ) : ℝ := r * (180 / π)

/-- Rust `f64::to_radians`: multiply by `π / 180`. -/
noncomputable def rad (r : ℝ) : ℝ := r * (π / 180)

/-- NaN-propagating addition of modelled doubles. -/
def fadd : Option ℝ → Option ℝ → Option ℝ
  | some a, some b => some (a + b)
  | _, _ => none

/-- NaN-propagating subtraction of modelled doubles. -/
def fsub : Option ℝ → Option ℝ → Option ℝ
  | some a, some b => some (a - b)
  | _, _ => none

/-- Model of `unit_spherical_to_cartesian` (lib.rs): convert unit-radius
spherical coordinates in degrees to Cartesian coordinates. -/
noncomputable def unit_spherical_to_cartesian (theta phi : ℝ) : ℝ × ℝ × ℝ :=
  (Real.sin (rad theta) * Real.cos (rad phi),
   Real.sin (rad theta) * Real.sin (rad phi),
   Real.cos (rad theta))

/-- Model of `cartesian_to_unit_spherical` (lib.rs): convert Cartesian
coordinates to unit-radius spherical coordinates in degrees.  The longitude
component is `y.signum() * (x / (x*x + y*y).sqrt()).acos().to_degrees()`;
when `x = y = 0` the quotient is IEEE `0/0` = NaN, which propagates through
`acos` and the product, hence `none` in the model. -/
noncomputable def cartesian_to_unit_spherical (x y z : ℝ) : Option ℝ × Option ℝ :=
  ((facos z).map deg,
   if x = 0 ∧ y = 0 then none
   else (facos (x / Real.sqrt (x * x + y * y))).map (fun a => fsignum y * deg a))

/-- Model of `third_coord_val` (lib.rs): the positive third coordinate on the
unit sphere given the other two, `(1.0 - first * first - second * second).sqrt()`. -/
noncomputable def third_coord_val (first second : ℝ) : Option ℝ :=
  fsqrt (1 - first * first - second * second)

/-- Components of a 2D canvas transform matrix (web `DOMMatrix` layout). -/
structure DomMatrix where
  a : ℝ
  b : ℝ
  c : ℝ
  d : ℝ
  e : ℝ
  f : ℝ

/-- Application of a `DomMatrix` to a point, as the canvas does when drawing:
`(a·u + c·v + e, b·u + d·v + f)`. -/
noncomputable def matrixApply (m : DomMatrix) (u v : ℝ) : ℝ × ℝ :=
  (m.a * u + m.c * v + m.e, m.b * u + m.d * v + m.f)

/-- Model of `canvas_to_unit_coords` (lib.rs): invert the context transform
using its matrix components, `((x - e)/a, (y - f)/d)`. -/
noncomputable def canvas_to_unit_coords (x y : ℝ) (reverse_transform : DomMatrix) : ℝ × ℝ :=
  ((x - reverse_transform.e) / reverse_transform.a,
   (y - reverse_transform.f) / reverse_transform.d)

def CANVAS_WIDTH : ℕ := 800
def CANVAS_HEIGHT : ℕ := 800

/-- Transform installed by `context.set_transform` in `main` (lib.rs): scale
by half the smaller canvas dimension, vertical flipped, translate by half
the smaller canvas dimension. -/
noncomputable def contextTransform : DomMatrix where
  a := (min CANVAS_WIDTH CANVAS_HEIGHT : ℝ) / 2
  b := 0
  c := 0
  d := (min CANVAS_WIDTH CANVAS_HEIGHT : ℝ) / -2
  e := (min CANVAS_WIDTH CANVAS_HEIGHT : ℝ) / 2
  f := (min CANVAS_WIDTH CANVAS_HEIGHT : ℝ) / 2

/-- Model of `Position` (lib.rs): a screen position in pixels. -/
structure Position where
  x : ℝ
  y : ℝ

/-- Model of `ControlData` (lib.rs): the interaction state.  The
accumulated longitude offset field is a double that NaN can reach, hence
`Option ℝ`. -/
structure ControlData where
  pressed : Bool
  position : Position
  position_prev : Position
  rotation : Option ℝ

/-- Model-space coordinates of a screen position: the source tick's
`canvas_to_unit_coords(position.x, position.y, &context_transform)`. -/
noncomputable def modelCoords (p : Position) : ℝ × ℝ :=
  canvas_to_unit_coords p.x p.y contextTransform

/-- The source tick's `third_coord_val` applied to a screen position's
model coordinates. -/
noncomputable def thirdOf (p : Position) : Option ℝ :=
  third_coord_val (modelCoords p).1 (modelCoords p).2

/-- Longitude (`phi`) component the source tick extracts from
`cartesian_to_unit_spherical(w, y, z)` for a screen position whose third
coordinate is `w`. -/
noncomputable def longitudeOf (p : Position) (w : ℝ) : Option ℝ :=
  (cartesian_to_unit_spherical w (modelCoords p).1 (modelCoords p).2).2

/-- Model of the `mousedown` closure (lib.rs): on the primary button, set
`pressed`, overwrite `position` with the event position and copy it into
`position_prev`. -/
def mousedown (button : ℤ) (ex ey : ℝ) (s : ControlData) : ControlData :=
  if button = 0 then
    { s with pressed := true, position := ⟨ex, ey⟩, position_prev := ⟨ex, ey⟩ }
  else s

/-- Model of the `mousemove` closure (lib.rs): while pressed, overwrite
`position`. -/
def mousemove (ex ey : ℝ) (s : ControlData) : ControlData :=
  if s.pressed then { s with position := ⟨ex, ey⟩ } else s

/-- Model of the `mouseup` closure (lib.rs): while pressed, overwrite
`position`; always clear `pressed`. -/
def mouseup (ex ey : ℝ) (s : ControlData) : ControlData :=
  let s' := if s.pressed then { s with position := ⟨ex, ey⟩ } else s
  { s' with pressed := false }

/-- Model of the animation-tick closure (lib.rs): if the position changed and
both the current and previous positions have a non-NaN third coordinate,
advance `position_prev` and accumulate the longitude delta into the state;
otherwise leave the state unchanged.  (The `draw` call has no effect on the
state.) -/
noncomputable def tick (s : ControlData) : ControlData :=
  if s.position ≠ s.position_prev then
    match thirdOf s.position with
    | none => s
    | some x =>
      match thirdOf s.position_prev with
      | none => s
      | some x_prev =>
        { s with
          position_prev := s.position,
          rotation := fadd s.rotation
            (fsub (longitudeOf s.position x) (longitudeOf s.position_prev x_prev)) }
  else s

/-- Per-point projection in `draw` (lib.rs): a geographic point goes through
`unit_spherical_to_cartesian(90 - lat, lon + rotation)`. -/
noncomputable def projectGeo (rot lon lat : ℝ) : ℝ × ℝ × ℝ :=
  unit_spherical_to_cartesian (90 - lat) (lon + rot)

/-- Per-segment classification in `draw` (lib.rs): a segment gets the back
style iff `x_prev < 0.0 || x < 0.0` for the two projected endpoints. -/
noncomputable def backFacingSegment (rot lon1 lat1 lon2 lat2 : ℝ) : Prop :=
  (projectGeo rot lon1 lat1).1 < 0 ∨ (projectGeo rot lon2 lat2).1 < 0

/-- Initial interaction state created in `main` (lib.rs):
`ControlData::default()` has `pressed = false`, both positions at the
origin and an accumulated offset of `0.0`. -/
def initialState : ControlData := ⟨false, ⟨0, 0⟩, ⟨0, 0⟩, some 0⟩

/-- Concrete mid-drag state: pressed, current position `(500, 400)`,
previous position `(400, 400)`, accumulated offset `0`. -/
def dragState : ControlData := ⟨true, ⟨500, 400⟩, ⟨400, 400⟩, some 0⟩

/-! ## Helper lemmas -/

/-- Shifting the third argument of `projectGeo` by 180 degrees negates the
projected depth (x) coordinate of every geographic point. -/
lemma projectGeo_add_180 (R lon lat : ℝ) :
    (projectGeo (R + 180) lon lat).1 = -(projectGeo R lon lat).1 := by
  have h : rad (lon + (R + 180)) = rad (lon + R) + π := by
    unfold rad; field_simp; ring
  simp only [projectGeo, unit_spherical_to_cartesian, h, Real.cos_add_pi]
  ring

/-- Shifting the third argument of `projectGeo` by −180 degrees also negates
the projected depth coordinate. -/
lemma projectGeo_sub_180 (R lon lat : ℝ) :
    (projectGeo (R - 180) lon lat).1 = -(projectGeo R lon lat).1 := by
  have h : rad (lon + (R - 180)) = rad (lon + R) - π := by
    unfold rad; field_simp; ring
  simp only [projectGeo, unit_spherical_to_cartesian, h, Real.cos_sub_pi]
  ring

/-- Concrete value of the context transform: 800×800 canvas, so scale 400,
vertical scale −400, translation (400, 400). -/
lemma contextTransform_eq : contextTransform = ⟨400, 0, 0, -400, 400, 400⟩ := by
  simp only [contextTransform, CANVAS_WIDTH, CANVAS_HEIGHT, min_self]
  norm_num

/-- Tick with an unchanged position leaves the state unchanged. -/
lemma tick_of_eq (s : ControlData) (h : s.position = s.position_prev) :
    tick s = s := by
  unfold tick
  rw [if_neg (by simpa using h)]

/-- Tick with a NaN third coordinate for the current position leaves the
state unchanged. -/
lemma tick_of_none (s : ControlData) (h : thirdOf s.position = none) :
    tick s = s := by
  unfold tick
  split_ifs with hne
  · rw [h]
  · rfl

/-- Tick with a NaN third coordinate for the previous position leaves the
state unchanged. -/
lemma tick_of_prev_none (s : ControlData) (h : thirdOf s.position_prev = none) :
    tick s = s := by
  unfold tick
  split_ifs with hne
  · cases hx : thirdOf s.position with
    | none => rfl
    | some x => rw [h]
  · rfl

/-- Tick on the success path: the position changed and both third
coordinates are non-NaN, so `position_prev` advances to `position` and the
longitude delta is accumulated. -/
lemma tick_of_success (s : ControlData) (x x_prev : ℝ)
    (hne : s.position ≠ s.position_prev)
    (hx : thirdOf s.position = some x)
    (hxp : thirdOf s.position_prev = some x_prev) :
    tick s = { s with
      position_prev := s.position,
      rotation := fadd s.rotation
        (fsub (longitudeOf s.position x) (longitudeOf s.position_prev x_prev)) } := by
  unfold tick
  rw [if_pos hne, hx, hxp]

/-- Conversion `to_radians` undoes `to_degrees`. -/
lemma rad_deg (a : ℝ) : rad (deg a) = a := by
  unfold rad deg
  field_simp

/-- Conversion `to_radians` is linear over scaling. -/
lemma rad_mul (c a : ℝ) : rad (c * a) = c * rad a := by
  unfold rad; ring

/-- On an argument inside `[-1, 1]`, `facos` is the real `arccos`. -/
lemma facos_of_mem (a : ℝ) (h1 : -1 ≤ a) (h2 : a ≤ 1) :
    facos a = some (Real.arccos a) := by
  unfold facos
  rw [if_neg]
  push_neg
  exact ⟨h1, h2⟩

/-! ## Claims -/

/-- Claim C1, confirmed: on an animation tick where the current and previous
screen positions differ and both have a non-NaN third coordinate (both map
to the visible disc), the tick adds `longitude(current) -
longitude(previous)` (as computed by `cartesian_to_unit_spherical`) to the
accumulated offset and sets `position_prev := position`; `pressed` and
`position` are untouched. -/
theorem c1_tick_applies_longitude_delta (s : ControlData) (x x_prev : ℝ)
    (hne : s.position ≠ s.position_prev)
    (hx : thirdOf s.position = some x)
    (hxp : thirdOf s.position_prev = some x_prev) :
    tick s = { s with
      position_prev := s.position,
      rotation := fadd s.rotation
        (fsub (longitudeOf s.position x) (longitudeOf s.position_prev x_prev)) } :=
  tick_of_success s x x_prev hne hx hxp

/-- Witness for C1 at `dragState`: `(500, 400)` maps to model coordinates
`(1/4, 0)` with third coordinate `sqrt (15/16)`, while `(400, 400)` maps to
`(0, 0)` with third coordinate `1`. -/
theorem c1_tick_applies_longitude_delta_witness :
    tick dragState = { dragState with
      position_prev := dragState.position,
      rotation := fadd dragState.rotation
        (fsub (longitudeOf dragState.position (Real.sqrt (15 / 16)))
              (longitudeOf dragState.position_prev 1)) } :=
  c1_tick_applies_longitude_delta dragState (Real.sqrt (15 / 16)) 1
    (by simp [dragState])
    (by norm_num [dragState, thirdOf, modelCoords, canvas_to_unit_coords,
      contextTransform_eq, third_coord_val, fsqrt])
    (by norm_num [dragState, thirdOf, modelCoords, canvas_to_unit_coords,
      contextTransform_eq, third_coord_val, fsqrt])

/-- Claim C2, refuted by the code (code bug): the claim says
`cartesian_to_unit_spherical` special-cases `x = y = 0` and returns
longitude `0` instead of NaN.  The code has no such special case: at
`x = y = 0` (here with `z = 1`, the exact pole) the quotient
`x / sqrt(x² + y²)` is IEEE `0/0` = NaN and the longitude component is NaN
(`none`), not `0`. -/
theorem c2_pole_longitude_is_nan :
    (cartesian_to_unit_spherical 0 0 1).2 = none := by
  simp [cartesian_to_unit_spherical]

/-- Claim C3, confirmed round trip: for `(x, y, z)` on the unit sphere, away
from the poles (`¬(x = 0 ∧ y = 0)`), whenever `cartesian_to_unit_spherical`
produces non-NaN spherical coordinates `(θ, φ)`,
`unit_spherical_to_cartesian θ φ` reproduces `(x, y, z)` exactly. -/
theorem c3_spherical_round_trip (x y z : ℝ)
    (hunit : x ^ 2 + y ^ 2 + z ^ 2 = 1) (hpole : ¬(x = 0 ∧ y = 0))
    (θ φ : ℝ) (hconv : cartesian_to_unit_spherical x y z = (some θ, some φ)) :
    unit_spherical_to_cartesian θ φ = (x, y, z) := by
  have hxy : 0 < x ^ 2 + y ^ 2 := by
    rcases not_and_or.mp hpole with h | h
    · have : 0 < x ^ 2 := by positivity
      nlinarith [sq_nonneg y]
    · have : 0 < y ^ 2 := by positivity
      nlinarith [sq_nonneg x]
  have hz2 : z ^ 2 ≤ 1 := by nlinarith
  have hz1 : -1 ≤ z := by nlinarith [sq_nonneg (z + 1)]
  have hz1' : z ≤ 1 := by nlinarith [sq_nonneg (z - 1)]
  simp only [cartesian_to_unit_spherical, if_neg hpole] at hconv
  set r := Real.sqrt (x * x + y * y) with hr
  have hxyeq : x * x + y * y = x ^ 2 + y ^ 2 := by ring
  have hrpos : 0 < r := by
    rw [hr, hxyeq]
    exact Real.sqrt_pos.mpr hxy
  have hrne : r ≠ 0 := ne_of_gt hrpos
  have hr2 : r ^ 2 = x ^ 2 + y ^ 2 := by
    rw [hr, hxyeq]
    exact Real.sq_sqrt (le_of_lt hxy)
  have habs : |x| ≤ r := by
    rw [hr, hxyeq, ← Real.sqrt_sq_eq_abs]
    exact Real.sqrt_le_sqrt (by nlinarith [sq_nonneg y])
  have ht1 : -1 ≤ x / r := by
    rw [le_div_iff₀ hrpos]
    have := neg_abs_le x
    linarith
  have ht2 : x / r ≤ 1 := by
    rw [div_le_one hrpos]
    exact le_trans (le_abs_self x) habs
  rw [facos_of_mem z hz1 hz1', facos_of_mem (x / r) ht1 ht2] at hconv
  simp only [Option.map_some', Prod.mk.injEq, Option.some.injEq] at hconv
  obtain ⟨hθ, hφ⟩ := hconv
  subst hθ hφ
  have hsinz : Real.sin (Real.arccos z) = r := by
    rw [Real.sin_arccos, show 1 - z ^ 2 = x * x + y * y by nlinarith, hr]
  have hcosz : Real.cos (Real.arccos z) = z := Real.cos_arccos hz1 hz1'
  have hcosa : Real.cos (Real.arccos (x / r)) = x / r := Real.cos_arccos ht1 ht2
  have hsina : Real.sin (Real.arccos (x / r)) = |y| / r := by
    rw [Real.sin_arccos, show 1 - (x / r) ^ 2 = (|y| / r) ^ 2 by
      rw [div_pow, div_pow, sq_abs]
      field_simp
      linarith [hr2]]
    exact Real.sqrt_sq (by positivity)
  simp only [unit_spherical_to_cartesian, rad_mul, rad_deg, Prod.mk.injEq]
  unfold fsignum
  split_ifs with hy
  · rw [neg_one_mul, Real.cos_neg, Real.sin_neg, hsinz, hcosz, hcosa, hsina,
      abs_of_neg hy]
    refine ⟨by field_simp, by field_simp, rfl⟩
  · rw [one_mul, hsinz, hcosz, hcosa, hsina, abs_of_nonneg (not_lt.mp hy)]
    refine ⟨by field_simp, by field_simp, rfl⟩

/-- Witness for C3 at `(x, y, z) = (1, 0, 0)`: the conversion gives
`(θ, φ) = (90, 0)` and mapping back reproduces `(1, 0, 0)`. -/
theorem c3_spherical_round_trip_witness :
    unit_spherical_to_cartesian 90 0 = (1, 0, 0) :=
  c3_spherical_round_trip 1 0 0 (by norm_num) (by norm_num) 90 0 (by
    unfold cartesian_to_unit_spherical
    norm_num [facos, fsignum, deg, Real.arccos_zero, Real.sqrt_one, Real.arccos_one]
    field_simp
    ring)

/-- Claim C4, confirmed: on an animation tick where the guard fails —
unchanged position, or a NaN third coordinate for either position — the
whole interaction state is unchanged: the accumulated offset keeps its value
and `position_prev` is not reset. -/
theorem c4_tick_guard_failure_no_change (s : ControlData)
    (h : s.position = s.position_prev ∨
      thirdOf s.position = none ∨ thirdOf s.position_prev = none) :
    tick s = s := by
  rcases h with h | h | h
  · exact tick_of_eq s h
  · exact tick_of_none s h
  · exact tick_of_prev_none s h

/-- Witness for C4: the initial state has `position = position_prev`, so the
tick is a no-op. -/
theorem c4_tick_guard_failure_no_change_witness : tick initialState = initialState :=
  c4_tick_guard_failure_no_change initialState (Or.inl rfl)

/-- Claim C5, confirmed: `third_coord_val u v` is NaN whenever
`u² + v² > 1 + ε` for any `ε ≥ 0`, and is a non-negative real (namely
`sqrt (1 - u² - v²)`) whenever `u² + v² ≤ 1`. -/
theorem c5_third_coord_val_spec (u v : ℝ) :
    (∀ ε : ℝ, 0 ≤ ε → u * u + v * v > 1 + ε → third_coord_val u v = none) ∧
    (u * u + v * v ≤ 1 →
      third_coord_val u v = some (Real.sqrt (1 - u * u - v * v)) ∧
      0 ≤ Real.sqrt (1 - u * u - v * v)) := by
  constructor
  · intro ε hε h
    have : 1 - u * u - v * v < 0 := by nlinarith
    simp [third_coord_val, fsqrt, this]
  · intro h
    have : ¬(1 - u * u - v * v < 0) := by nlinarith
    exact ⟨by simp [third_coord_val, fsqrt, this], Real.sqrt_nonneg _⟩

/-- Witness for C5 at concrete inputs: `(1, 1)` is outside the disc and
gives NaN; `(0, 0)` is inside and gives the non-negative `sqrt 1`. -/
theorem c5_third_coord_val_spec_witness :
    third_coord_val 1 1 = none ∧
    (third_coord_val 0 0 = some (Real.sqrt (1 - 0 * 0 - 0 * 0)) ∧
      0 ≤ Real.sqrt (1 - 0 * 0 - 0 * 0)) :=
  ⟨(c5_third_coord_val_spec 1 1).1 0 le_rfl (by norm_num),
   (c5_third_coord_val_spec 0 0).2 (by norm_num)⟩

/-- Claim C6, confirmed: `draw` classifies a segment back-facing iff one of
the endpoints, projected via `unit_spherical_to_cartesian (90 - lat)
(lon + rotation)`, has negative Cartesian x; and the point
`(lon, lat) = (0, 0)` projects to `(1, 0, 0)` (front-facing) at rotation `0`
and to `(-1, 0, 0)` (back-facing) at rotation `180`. -/
theorem c6_back_facing_classification :
    (∀ R lon1 lat1 lon2 lat2 : ℝ,
      backFacingSegment R lon1 lat1 lon2 lat2 ↔
        (projectGeo R lon1 lat1).1 < 0 ∨ (projectGeo R lon2 lat2).1 < 0) ∧
    projectGeo 0 0 0 = (1, 0, 0) ∧
    ¬ backFacingSegment 0 0 0 0 0 ∧
    projectGeo 180 0 0 = (-1, 0, 0) ∧
    backFacingSegment 180 0 0 0 0 := by
  have h90 : rad 90 = π / 2 := by unfold rad; ring
  have h0 : rad 0 = 0 := by unfold rad; ring
  have h180 : rad 180 = π := by unfold rad; field_simp
  have hp0 : projectGeo 0 0 0 = (1, 0, 0) := by
    norm_num [projectGeo, unit_spherical_to_cartesian, h90, h0]
  have hp180 : projectGeo 180 0 0 = (-1, 0, 0) := by
    norm_num [projectGeo, unit_spherical_to_cartesian, h90, h180]
  refine ⟨fun _ _ _ _ _ => Iff.rfl, hp0, ?_, hp180, ?_⟩
  · simp [backFacingSegment, hp0]
  · simp [backFacingSegment, hp180]

/-- Claim C7, counterexample: the claim says `position_prev` is advanced
only in lockstep with a change to the accumulated offset, across press,
move, release and tick.  The `mousedown` handler refutes it: pressing at
`(10, 10)` from the initial state resets `position_prev` to `(10, 10)`
while the offset keeps its value. -/
theorem c7_previous_lockstep_counterexample :
    (mousedown 0 10 10 initialState).position_prev ≠ initialState.position_prev ∧
    ControlData.rotation (mousedown 0 10 10 initialState) =
      ControlData.rotation initialState := by
  constructor
  · simp [mousedown, initialState, Position.mk.injEq]
  · rfl

/-- Claim C7, amended: `position_prev` is advanced in lockstep with an
offset update only by the animation tick — `mousemove` and `mouseup` never
touch `position_prev` or the offset, and a tick either leaves the whole
state unchanged or advances `position_prev` to `position` in the very step
in which it accumulates the longitude delta — with the exception of
`mousedown`, which re-anchors `position_prev` to the pressed position while
leaving the offset unchanged. -/
theorem c7_previous_lockstep_amended :
    (∀ (ex ey : ℝ) (s : ControlData),
      (mousemove ex ey s).position_prev = s.position_prev ∧
      ControlData.rotation (mousemove ex ey s) = s.rotation) ∧
    (∀ (ex ey : ℝ) (s : ControlData),
      (mouseup ex ey s).position_prev = s.position_prev ∧
      ControlData.rotation (mouseup ex ey s) = s.rotation) ∧
    (∀ (b : ℤ) (ex ey : ℝ) (s : ControlData),
      ControlData.rotation (mousedown b ex ey s) = s.rotation) ∧
    (∀ s : ControlData, tick s = s ∨
      ∃ x x_prev : ℝ,
        thirdOf s.position = some x ∧ thirdOf s.position_prev = some x_prev ∧
        (tick s).position_prev = s.position ∧
        ControlData.rotation (tick s) = fadd s.rotation
          (fsub (longitudeOf s.position x) (longitudeOf s.position_prev x_prev))) := by
  refine ⟨fun ex ey s => ?_, fun ex ey s => ?_, fun b ex ey s => ?_, fun s => ?_⟩
  · unfold mousemove; split_ifs <;> exact ⟨rfl, rfl⟩
  · unfold mouseup; split_ifs <;> exact ⟨rfl, rfl⟩
  · unfold mousedown; split_ifs <;> rfl
  · by_cases heq : s.position = s.position_prev
    · exact Or.inl (tick_of_eq s heq)
    · cases hx : thirdOf s.position with
      | none => exact Or.inl (tick_of_none s hx)
      | some x =>
        cases hxp : thirdOf s.position_prev with
        | none => exact Or.inl (tick_of_prev_none s hxp)
        | some x_prev =>
          refine Or.inr ⟨x, x_prev, rfl, rfl, ?_, ?_⟩ <;>
            rw [tick_of_success s x x_prev heq hx hxp]

/-- Claim C8, confirmed: a segment classified front-facing at rotation `R`
whose endpoints both have nonzero projected depth is classified back-facing
at rotation `R + 180`, and likewise at `R - 180` (the two representatives of
`R + 180` mod 360). -/
theorem c8_front_back_antisymmetry (R lon1 lat1 lon2 lat2 : ℝ)
    (hfront : ¬ backFacingSegment R lon1 lat1 lon2 lat2)
    (h1 : (projectGeo R lon1 lat1).1 ≠ 0)
    (h2 : (projectGeo R lon2 lat2).1 ≠ 0) :
    backFacingSegment (R + 180) lon1 lat1 lon2 lat2 ∧
    backFacingSegment (R - 180) lon1 lat1 lon2 lat2 := by
  rw [backFacingSegment, not_or] at hfront
  obtain ⟨hf1, hf2⟩ := hfront
  have hpos1 : 0 < (projectGeo R lon1 lat1).1 :=
    lt_of_le_of_ne (not_lt.mp hf1) (Ne.symm h1)
  have hpos2 : 0 < (projectGeo R lon2 lat2).1 :=
    lt_of_le_of_ne (not_lt.mp hf2) (Ne.symm h2)
  constructor
  · exact Or.inl (by rw [projectGeo_add_180]; linarith)
  · exact Or.inl (by rw [projectGeo_sub_180]; linarith)

/-- Witness for C8: the degenerate segment with both endpoints at
`(lon, lat) = (0, 0)` is front-facing with nonzero depth at rotation `0`,
hence back-facing at rotations `180` and `-180`. -/
theorem c8_front_back_antisymmetry_witness :
    backFacingSegment (0 + 180) 0 0 0 0 ∧ backFacingSegment (0 - 180) 0 0 0 0 := by
  have h90 : rad 90 = π / 2 := by unfold rad; ring
  have h0 : rad 0 = 0 := by unfold rad; ring
  have hp0 : projectGeo 0 0 0 = (1, 0, 0) := by
    norm_num [projectGeo, unit_spherical_to_cartesian, h90, h0]
  exact c8_front_back_antisymmetry 0 0 0 0 0
    (by simp [backFacingSegment, hp0]) (by simp [hp0]) (by simp [hp0])

/-- Claim C9, confirmed: `canvas_to_unit_coords` is the algebraic inverse of
the forward canvas transform — for any transform matrix with nonzero scales,
mapping a model point through `(a·u + e, d·v + f)` and back returns the
point, and vice versa for screen points — and in particular this holds for
the installed `contextTransform`, whose inverse is read off its matrix
components rather than hardcoded. -/
theorem c9_canvas_transform_inverse :
    (∀ m : DomMatrix, m.a ≠ 0 → m.d ≠ 0 →
      (∀ u v : ℝ, canvas_to_unit_coords (m.a * u + m.e) (m.d * v + m.f) m = (u, v)) ∧
      (∀ x y : ℝ,
        (m.a * (canvas_to_unit_coords x y m).1 + m.e,
         m.d * (canvas_to_unit_coords x y m).2 + m.f) = (x, y))) ∧
    (∀ u v : ℝ,
      canvas_to_unit_coords (matrixApply contextTransform u v).1
        (matrixApply contextTransform u v).2 contextTransform = (u, v)) ∧
    (∀ x y : ℝ,
      matrixApply contextTransform (canvas_to_unit_coords x y contextTransform).1
        (canvas_to_unit_coords x y contextTransform).2 = (x, y)) := by
  refine ⟨fun m ha hd => ⟨fun u v => ?_, fun x y => ?_⟩, fun u v => ?_, fun x y => ?_⟩
  · simp only [canvas_to_unit_coords, add_sub_cancel_right]
    rw [mul_div_cancel_left₀ _ ha, mul_div_cancel_left₀ _ hd]
  · simp only [canvas_to_unit_coords]
    rw [mul_div_cancel₀ _ ha, mul_div_cancel₀ _ hd]
    simp
  · rw [contextTransform_eq]
    simp only [matrixApply, canvas_to_unit_coords]
    norm_num
  · rw [contextTransform_eq]
    simp only [matrixApply, canvas_to_unit_coords, Prod.mk.injEq]
    constructor <;> ring

/-- Witness for C9: the general inverse statement applied to the concrete
`contextTransform` at the model point `(1/2, 1/3)`. -/
theorem c9_canvas_transform_inverse_witness :
    canvas_to_unit_coords (contextTransform.a * (1 / 2) + contextTransform.e)
      (contextTransform.d * (1 / 3) + contextTransform.f) contextTransform = (1 / 2, 1 / 3) :=
  ((c9_canvas_transform_inverse.1 contextTransform
    (by rw [contextTransform_eq]; norm_num)
    (by rw [contextTransform_eq]; norm_num)).1 (1 / 2) (1 / 3))

/-- Claim C10, confirmed: no pointer handler ever modifies the accumulated
offset — for any button and event coordinates, `mousedown`, `mousemove` and
`mouseup` leave it exactly as it was. -/
theorem c10_pointer_handlers_preserve_rotation :
    (∀ (b : ℤ) (ex ey : ℝ) (s : ControlData),
      ControlData.rotation (mousedown b ex ey s) = s.rotation) ∧
    (∀ (ex ey : ℝ) (s : ControlData),
      ControlData.rotation (mousemove ex ey s) = s.rotation) ∧
    (∀ (ex ey : ℝ) (s : ControlData),
      ControlData.rotation (mouseup ex ey s) = s.rotation) := by
  refine ⟨fun b ex ey s => ?_, fun ex ey s => ?_, fun ex ey s => ?_⟩
  · unfold mousedown; split_ifs <;> rfl
  · unfold mousemove; split_ifs <;> rfl
  · unfold mouseup; split_ifs <;> rfl
